import Mathlib

/-!
Verification of the Novel Refiner frontend services (Angular/TypeScript).

The TypeScript services are shallowly embedded: JavaScript strings become
lists of characters (`Str`), JavaScript numbers used as counters become
`Nat`, JavaScript floating-point results are modelled with exact rational
arithmetic (`Rat`), optional values become `Option`, and rxjs pipelines
over cold observables become explicit functions from attempt indices to
`Except` results.
-/

/-- A JavaScript string, modelled as its sequence of characters. -/
abbrev Str := List Char

/-- Whitespace test used by `String.prototype.trim`. -/
def isWs (c : Char) : Bool := c.isWhitespace

/-- `String.prototype.trim`: drop leading and trailing whitespace. -/
def trimStr (s : Str) : Str := ((s.dropWhile isWs).reverse.dropWhile isWs).reverse

/-- `String.prototype.toLowerCase`, character by character. -/
def toLowerStr (s : Str) : Str := s.map Char.toLower

/-- The shape `{ valid: boolean; errors: string[] }` returned by the
validation helpers in `nlp.ts` and `glossary.ts`. -/
structure ValidationResult where
  valid : Bool
  errors : List String
deriving Repr, DecidableEq

/-- `NlpService.validateTextForProcessing` from
`src/frontend/novel-refiner-app/src/app/services/nlp.ts`:
pushes an error when the text is falsy or trims to length 0, when its raw
length exceeds 50,000, and when its raw length is below 10; `valid` holds
exactly when no error was pushed. -/
def validateTextForProcessing (text : Str) : ValidationResult :=
  let errors : List String :=
    (if text.isEmpty || (trimStr text).length == 0 then ["Text cannot be empty"] else [])
    ++ (if text.length > 50000 then ["Text is too long (maximum 50,000 characters)"] else [])
    ++ (if text.length < 10 then ["Text is too short (minimum 10 characters)"] else [])
  { valid := errors.isEmpty, errors := errors }

lemma trimStr_nil : trimStr [] = [] := rfl

lemma emptyCond_iff (text : Str) :
    (text.isEmpty || (trimStr text).length == 0) = true ↔ trimStr text = [] := by
  simp only [Bool.or_eq_true, List.isEmpty_iff, beq_iff_eq, List.length_eq_zero]
  constructor
  · rintro (rfl | h)
    · rfl
    · exact h
  · intro h
    exact Or.inr h

lemma emptyCond_eq_false (text : Str) (hA : trimStr text ≠ []) :
    (text.isEmpty || (trimStr text).length == 0) = false := by
  cases h : (text.isEmpty || (trimStr text).length == 0)
  · rfl
  · exact absurd ((emptyCond_iff text).mp h) hA

lemma validateText_valid_false_iff (text : Str) :
    (validateTextForProcessing text).valid = false ↔
      (trimStr text = [] ∨ text.length < 10 ∨ 50000 < text.length) := by
  by_cases hA : trimStr text = []
  · have h1 : (text.isEmpty || (trimStr text).length == 0) = true := (emptyCond_iff text).mpr hA
    simp [validateTextForProcessing, h1, hA]
  · have h1 := emptyCond_eq_false text hA
    by_cases hB : text.length < 10 <;> by_cases hC : 50000 < text.length <;>
      simp [validateTextForProcessing, h1, hA, hB, hC]

lemma validateText_empty_mem_iff (text : Str) :
    "Text cannot be empty" ∈ (validateTextForProcessing text).errors ↔ trimStr text = [] := by
  by_cases hA : trimStr text = []
  · have h1 : (text.isEmpty || (trimStr text).length == 0) = true := (emptyCond_iff text).mpr hA
    simp [validateTextForProcessing, h1, hA]
  · have h1 := emptyCond_eq_false text hA
    simp only [validateTextForProcessing, h1, if_false, Bool.false_eq_true]
    split_ifs <;> simp_all

lemma dropWhile_isWs_replicate_a (n : Nat) :
    (List.replicate n 'a').dropWhile isWs = List.replicate n 'a' := by
  cases n with
  | zero => rfl
  | succ m => simp [List.replicate_succ, List.dropWhile_cons, show isWs 'a' = false from rfl]

lemma trimStr_replicate_a (n : Nat) :
    trimStr (List.replicate n 'a') = List.replicate n 'a' := by
  unfold trimStr
  rw [dropWhile_isWs_replicate_a, List.reverse_replicate, dropWhile_isWs_replicate_a,
    List.reverse_replicate]

/-- C1: `validateTextForProcessing` returns `valid = false` exactly when the
text trims to empty, is shorter than 10 characters, or is longer than 50,000
characters; a text of length 9 is invalid, all-letter texts of lengths 10 and
50,000 are valid, and one of length 50,001 is invalid. -/
theorem validateText_boundaries :
    (∀ text : Str, (validateTextForProcessing text).valid = false ↔
      (trimStr text = [] ∨ text.length < 10 ∨ 50000 < text.length))
    ∧ (validateTextForProcessing (List.replicate 9 'a')).valid = false
    ∧ (validateTextForProcessing (List.replicate 10 'a')).valid = true
    ∧ (validateTextForProcessing (List.replicate 50000 'a')).valid = true
    ∧ (validateTextForProcessing (List.replicate 50001 'a')).valid = false := by
  have hvalid : ∀ n : Nat, 0 < n →
      ((validateTextForProcessing (List.replicate n 'a')).valid = false ↔
        (n < 10 ∨ 50000 < n)) := by
    intro n hn
    rw [validateText_valid_false_iff, trimStr_replicate_a, List.length_replicate]
    constructor
    · rintro (h | h | h)
      · have hlen := congrArg List.length h
        simp at hlen
        omega
      · exact Or.inl h
      · exact Or.inr h
    · rintro (h | h)
      · exact Or.inr (Or.inl h)
      · exact Or.inr (Or.inr h)
  refine ⟨validateText_valid_false_iff, ?_, ?_, ?_, ?_⟩
  · exact (hvalid 9 (by omega)).mpr (by omega)
  · cases h : (validateTextForProcessing (List.replicate 10 'a')).valid
    · exact absurd ((hvalid 10 (by omega)).mp h) (by omega)
    · rfl
  · cases h : (validateTextForProcessing (List.replicate 50000 'a')).valid
    · exact absurd ((hvalid 50000 (by omega)).mp h) (by omega)
    · rfl
  · exact (hvalid 50001 (by omega)).mpr (by omega)

/-- C10: a text consisting only of whitespace characters is rejected with the
'Text cannot be empty' error, regardless of its raw length. -/
theorem validateText_whitespace_only (text : Str) (hws : ∀ c ∈ text, isWs c = true) :
    (validateTextForProcessing text).valid = false
    ∧ "Text cannot be empty" ∈ (validateTextForProcessing text).errors := by
  have htrim : trimStr text = [] := by
    have hdrop : text.dropWhile isWs = [] := List.dropWhile_eq_nil_iff.mpr hws
    unfold trimStr
    rw [hdrop]
    rfl
  exact ⟨(validateText_valid_false_iff text).mpr (Or.inl htrim),
    (validateText_empty_mem_iff text).mpr htrim⟩

/-- Witness for C10 at a twelve-space text, whose raw length 12 lies inside
the [10, 50000] bounds. -/
theorem validateText_whitespace_only_witness :
    (validateTextForProcessing (List.replicate 12 ' ')).valid = false
    ∧ "Text cannot be empty" ∈ (validateTextForProcessing (List.replicate 12 ' ')).errors :=
  validateText_whitespace_only (List.replicate 12 ' ') (by decide)

/-- `GlossaryTerm` from `novel.model.ts`: a persisted glossary entry. -/
structure GlossaryTerm where
  id : Nat
  novel_id : Nat
  original_term : Str
  preferred_term : Str
  term_type : Str
  context : Option Str
  frequency : Nat
  is_active : Bool
deriving Repr, DecidableEq

/-- `GlossaryTermCreate` from `novel.model.ts`: the payload for creating a term. -/
structure GlossaryTermCreate where
  novel_id : Nat
  original_term : Str
  preferred_term : Str
  term_type : Str
  context : Option Str := none
deriving Repr, DecidableEq

/-- `GlossaryService.validateTerm` from
`src/frontend/novel-refiner-app/src/app/services/glossary.ts`:
pushes emptiness errors for the three required fields, a duplicate error when
some existing term has the same `original_term` case-insensitively, and
length errors when a non-empty term field exceeds 200 characters. -/
def validateTerm (term : GlossaryTermCreate) (existingTerms : List GlossaryTerm) :
    ValidationResult :=
  let errors : List String :=
    (if term.original_term.isEmpty || (trimStr term.original_term).length == 0 then
        ["Original term cannot be empty"] else [])
    ++ (if term.preferred_term.isEmpty || (trimStr term.preferred_term).length == 0 then
        ["Preferred term cannot be empty"] else [])
    ++ (if term.term_type.isEmpty || (trimStr term.term_type).length == 0 then
        ["Term type cannot be empty"] else [])
    ++ (if (existingTerms.find? (fun existing =>
          toLowerStr existing.original_term == toLowerStr term.original_term)).isSome then
        ["A term with this original term already exists"] else [])
    ++ (if term.original_term ≠ [] ∧ 200 < term.original_term.length then
        ["Original term is too long (maximum 200 characters)"] else [])
    ++ (if term.preferred_term ≠ [] ∧ 200 < term.preferred_term.length then
        ["Preferred term is too long (maximum 200 characters)"] else [])
  { valid := errors.isEmpty, errors := errors }

lemma find_dup_isSome_iff (term : GlossaryTermCreate) (existingTerms : List GlossaryTerm) :
    (existingTerms.find? (fun existing =>
        toLowerStr existing.original_term == toLowerStr term.original_term)).isSome = true ↔
      ∃ e ∈ existingTerms, toLowerStr e.original_term = toLowerStr term.original_term := by
  rw [List.find?_isSome]
  simp

lemma validateTerm_dup_mem_iff (term : GlossaryTermCreate)
    (existingTerms : List GlossaryTerm) :
    "A term with this original term already exists" ∈ (validateTerm term existingTerms).errors ↔
      (existingTerms.find? (fun existing =>
        toLowerStr existing.original_term == toLowerStr term.original_term)).isSome = true := by
  simp only [validateTerm]
  split_ifs with h1 h2 h3 h4 h5 h6 <;> simp_all

lemma validateTerm_valid_false_of_dup (term : GlossaryTermCreate)
    (existingTerms : List GlossaryTerm)
    (hdup : (existingTerms.find? (fun existing =>
      toLowerStr existing.original_term == toLowerStr term.original_term)).isSome = true) :
    (validateTerm term existingTerms).valid = false := by
  simp only [validateTerm]
  split_ifs <;> simp_all

/-- The Elyra term already stored in the glossary of novel 1. -/
def elyraTerm : GlossaryTerm :=
  { id := 1, novel_id := 1, original_term := "Elyra".toList,
    preferred_term := "Elyra".toList, term_type := "character".toList,
    context := none, frequency := 3, is_active := true }

/-- A creation payload whose `original_term` differs from `elyraTerm` only in case. -/
def elyraCreate : GlossaryTermCreate :=
  { novel_id := 1, original_term := "elyra".toList,
    preferred_term := "Elyra".toList, term_type := "character".toList }

/-- C2: `validateTerm` reports the duplicate error exactly when some existing
term has the same `original_term` under case-insensitive comparison, and a
duplicate makes the result invalid; in particular an existing "Elyra" makes a
new "elyra" invalid. -/
theorem validateTerm_duplicate_iff (term : GlossaryTermCreate)
    (existingTerms : List GlossaryTerm) :
    ("A term with this original term already exists" ∈ (validateTerm term existingTerms).errors ↔
      ∃ e ∈ existingTerms, toLowerStr e.original_term = toLowerStr term.original_term)
    ∧ ((∃ e ∈ existingTerms, toLowerStr e.original_term = toLowerStr term.original_term) →
      (validateTerm term existingTerms).valid = false) := by
  constructor
  · rw [validateTerm_dup_mem_iff]
    exact find_dup_isSome_iff term existingTerms
  · intro hex
    exact validateTerm_valid_false_of_dup term existingTerms
      ((find_dup_isSome_iff term existingTerms).mpr hex)

/-- Witness for C2: with "Elyra" already present, creating "elyra" is invalid
and carries the duplicate error. -/
theorem validateTerm_duplicate_witness :
    (validateTerm elyraCreate [elyraTerm]).valid = false ∧
      "A term with this original term already exists" ∈
        (validateTerm elyraCreate [elyraTerm]).errors :=
  ⟨(validateTerm_duplicate_iff elyraCreate [elyraTerm]).2 (by decide),
   (validateTerm_duplicate_iff elyraCreate [elyraTerm]).1.mpr (by decide)⟩

lemma validateTerm_origEmpty_mem (term : GlossaryTermCreate) (existingTerms : List GlossaryTerm)
    (hc : trimStr term.original_term = []) :
    "Original term cannot be empty" ∈ (validateTerm term existingTerms).errors := by
  have h1 : (term.original_term.isEmpty || (trimStr term.original_term).length == 0) = true :=
    (emptyCond_iff _).mpr hc
  simp only [validateTerm]
  split_ifs <;> simp_all

lemma validateTerm_prefEmpty_mem (term : GlossaryTermCreate) (existingTerms : List GlossaryTerm)
    (hc : trimStr term.preferred_term = []) :
    "Preferred term cannot be empty" ∈ (validateTerm term existingTerms).errors := by
  have h1 : (term.preferred_term.isEmpty || (trimStr term.preferred_term).length == 0) = true :=
    (emptyCond_iff _).mpr hc
  simp only [validateTerm]
  split_ifs <;> simp_all

lemma validateTerm_typeEmpty_mem (term : GlossaryTermCreate) (existingTerms : List GlossaryTerm)
    (hc : trimStr term.term_type = []) :
    "Term type cannot be empty" ∈ (validateTerm term existingTerms).errors := by
  have h1 : (term.term_type.isEmpty || (trimStr term.term_type).length == 0) = true :=
    (emptyCond_iff _).mpr hc
  simp only [validateTerm]
  split_ifs <;> simp_all

lemma validateTerm_origLong_mem (term : GlossaryTermCreate) (existingTerms : List GlossaryTerm)
    (hc : term.original_term ≠ [] ∧ 200 < term.original_term.length) :
    "Original term is too long (maximum 200 characters)" ∈
      (validateTerm term existingTerms).errors := by
  simp only [validateTerm]
  split_ifs <;> simp_all

lemma validateTerm_prefLong_mem (term : GlossaryTermCreate) (existingTerms : List GlossaryTerm)
    (hc : term.preferred_term ≠ [] ∧ 200 < term.preferred_term.length) :
    "Preferred term is too long (maximum 200 characters)" ∈
      (validateTerm term existingTerms).errors := by
  simp only [validateTerm]
  split_ifs <;> simp_all

/-- A creation payload whose `original_term` has exactly 200 characters. -/
def term200create : GlossaryTermCreate :=
  { novel_id := 1, original_term := List.replicate 200 'a',
    preferred_term := "x".toList, term_type := "general".toList }

/-- A creation payload whose `original_term` has exactly 201 characters. -/
def term201create : GlossaryTermCreate :=
  { novel_id := 1, original_term := List.replicate 201 'a',
    preferred_term := "x".toList, term_type := "general".toList }

set_option maxRecDepth 8000 in
/-- C3: `validateTerm` can return `valid = true` only when the three required
fields are non-empty after trimming and both term fields are at most 200
characters long; a 200-character original term passes while a 201-character
one fails. -/
theorem validateTerm_valid_only_if (term : GlossaryTermCreate)
    (existingTerms : List GlossaryTerm)
    (h : (validateTerm term existingTerms).valid = true) :
    (trimStr term.original_term ≠ [] ∧ trimStr term.preferred_term ≠ [] ∧
      trimStr term.term_type ≠ [] ∧ term.original_term.length ≤ 200 ∧
      term.preferred_term.length ≤ 200)
    ∧ (validateTerm term200create []).valid = true
    ∧ (validateTerm term201create []).valid = false := by
  have herrs : (validateTerm term existingTerms).errors = [] := by
    have hv : (validateTerm term existingTerms).valid =
        (validateTerm term existingTerms).errors.isEmpty := rfl
    rw [hv] at h
    exact List.isEmpty_iff.mp h
  refine ⟨⟨?_, ?_, ?_, ?_, ?_⟩, by decide, by decide⟩
  · intro hc
    have hmem := validateTerm_origEmpty_mem term existingTerms hc
    rw [herrs] at hmem
    simp at hmem
  · intro hc
    have hmem := validateTerm_prefEmpty_mem term existingTerms hc
    rw [herrs] at hmem
    simp at hmem
  · intro hc
    have hmem := validateTerm_typeEmpty_mem term existingTerms hc
    rw [herrs] at hmem
    simp at hmem
  · by_contra hlen
    push_neg at hlen
    have hne : term.original_term ≠ [] := by
      intro hnil
      rw [hnil] at hlen
      simp at hlen
    have hmem := validateTerm_origLong_mem term existingTerms ⟨hne, hlen⟩
    rw [herrs] at hmem
    simp at hmem
  · by_contra hlen
    push_neg at hlen
    have hne : term.preferred_term ≠ [] := by
      intro hnil
      rw [hnil] at hlen
      simp at hlen
    have hmem := validateTerm_prefLong_mem term existingTerms ⟨hne, hlen⟩
    rw [herrs] at hmem
    simp at hmem

set_option maxRecDepth 8000 in
/-- Witness for C3 at the valid 200-character payload. -/
theorem validateTerm_valid_only_if_witness :
    trimStr term200create.original_term ≠ [] ∧ trimStr term200create.preferred_term ≠ [] ∧
      trimStr term200create.term_type ≠ [] ∧ term200create.original_term.length ≤ 200 ∧
      term200create.preferred_term.length ≤ 200 :=
  (validateTerm_valid_only_if term200create [] (by decide)).1

/-- `Chapter` from `novel.model.ts`. -/
structure Chapter where
  id : Nat
  chapter_number : Nat
  title : Str
  url : Str
  is_processed : Bool
  word_count : Nat
deriving Repr, DecidableEq

/-- The statistics object built by `NovelService.getProcessingStats`. -/
structure ProcessingStats where
  totalChapters : Nat
  processedChapters : Nat
  completionPercentage : Rat
  averageWordCount : Rat
deriving Repr, DecidableEq

/-- `NovelService.getProcessingStats` from
`src/frontend/novel-refiner-app/src/app/services/novel.ts`, applied to the
chapter list of the fetched novel; JavaScript floating-point division is
modelled exactly over `Rat`. -/
def getProcessingStats (chapters : List Chapter) : ProcessingStats :=
  let totalChapters := chapters.length
  let processedChapters := (chapters.filter (fun ch => ch.is_processed)).length
  { totalChapters := totalChapters
    processedChapters := processedChapters
    completionPercentage :=
      if 0 < totalChapters then ((processedChapters : Rat) / (totalChapters : Rat)) * 100 else 0
    averageWordCount :=
      if 0 < totalChapters then
        ((chapters.foldl (fun sum ch => sum + ch.word_count) 0 : Nat) : Rat) /
          (totalChapters : Rat)
      else 0 }

/-- C4: the completion percentage equals `100 * processed / total` when there
are chapters, equals 0 when there are none, and always lies in [0, 100]. -/
theorem processingStats_percentage (chapters : List Chapter) :
    (0 < chapters.length → (getProcessingStats chapters).completionPercentage =
      100 * ((getProcessingStats chapters).processedChapters : Rat) /
        ((getProcessingStats chapters).totalChapters : Rat))
    ∧ (chapters.length = 0 → (getProcessingStats chapters).completionPercentage = 0)
    ∧ 0 ≤ (getProcessingStats chapters).completionPercentage
    ∧ (getProcessingStats chapters).completionPercentage ≤ 100 := by
  have hple : (chapters.filter (fun ch => ch.is_processed)).length ≤ chapters.length :=
    List.length_filter_le _ _
  by_cases ht : 0 < chapters.length
  · have ht0 : (0 : Rat) < (chapters.length : Rat) := by exact_mod_cast ht
    have hcast : ((chapters.filter (fun ch => ch.is_processed)).length : Rat) ≤
        (chapters.length : Rat) := by exact_mod_cast hple
    refine ⟨fun _ => ?_, fun h0 => absurd h0 (by omega), ?_, ?_⟩
    · simp only [getProcessingStats, if_pos ht]
      rw [div_mul_eq_mul_div, mul_comm]
    · simp only [getProcessingStats, if_pos ht]
      positivity
    · simp only [getProcessingStats, if_pos ht]
      rw [div_mul_eq_mul_div, div_le_iff₀ ht0]
      nlinarith
  · have ht0 : chapters.length = 0 := by omega
    refine ⟨fun h => absurd h ht, fun _ => ?_, ?_, ?_⟩ <;>
      simp [getProcessingStats, ht0]

/-- A processed and an unprocessed chapter used as concrete inputs. -/
def demoChapters : List Chapter :=
  [{ id := 1, chapter_number := 1, title := "c1".toList, url := "u1".toList,
     is_processed := true, word_count := 100 },
   { id := 2, chapter_number := 2, title := "c2".toList, url := "u2".toList,
     is_processed := false, word_count := 300 }]

/-- Witness for C4 at a two-chapter novel with one processed chapter. -/
theorem processingStats_percentage_witness :
    (getProcessingStats demoChapters).completionPercentage =
      100 * ((getProcessingStats demoChapters).processedChapters : Rat) /
        ((getProcessingStats demoChapters).totalChapters : Rat) :=
  (processingStats_percentage demoChapters).1 (by decide)

/-- rxjs `retry(n)` over a cold HTTP observable, modelled as resubscription:
`source i` is the outcome of the i-th subscription to the underlying request.
On an error, up to `retries` further subscriptions are made; the last error is
surfaced (the downstream `catchError(handleError)` in `api.ts` rethrows a
massaged error and never resubscribes, so it does not change attempt counts). -/
def retryPipe {A : Type} (retries : Nat) (source : Nat → Except String A) (i : Nat) :
    Except String A :=
  match retries, source i with
  | _, .ok a => .ok a
  | 0, .error e => .error e
  | r + 1, .error _ => retryPipe r source (i + 1)

/-- How many times the underlying request is issued by `retryPipe`. -/
def subscriptionCount {A : Type} (retries : Nat) (source : Nat → Except String A)
    (i : Nat) : Nat :=
  match retries, source i with
  | _, .ok _ => 1
  | 0, .error _ => 1
  | r + 1, .error _ => 1 + subscriptionCount r source (i + 1)

/-- `ApiService.get` from `src/unnamed/part_002`: `pipe(retry(1), catchError(...))`. -/
def apiServiceGet {A : Type} (source : Nat → Except String A) : Except String A :=
  retryPipe 1 source 0

/-- Number of times `ApiService.get` issues the underlying request. -/
def apiServiceGetSubscriptions {A : Type} (source : Nat → Except String A) : Nat :=
  subscriptionCount 1 source 0

/-- `ApiService.post` (likewise `put`, `delete`, `upload`): `pipe(catchError(...))`
with no `retry` operator. -/
def apiServicePost {A : Type} (source : Nat → Except String A) : Except String A :=
  retryPipe 0 source 0

/-- Number of times `ApiService.post` issues the underlying request. -/
def apiServicePostSubscriptions {A : Type} (source : Nat → Except String A) : Nat :=
  subscriptionCount 0 source 0

/-- An underlying request that fails on every attempt. -/
def alwaysFailSource : Nat → Except String Unit := fun _ => .error "boom"

/-- An underlying request that fails once and then succeeds. -/
def failThenOkSource : Nat → Except String Unit := fun i =>
  if i = 0 then .error "boom" else .ok ()

/-- C5 counterexample: a GET whose underlying request keeps failing issues the
request twice — it is transparently re-issued once before the error surfaces,
contradicting the claim that requests through the generic API layer are not
re-issued. -/
theorem apiGet_reissued_counterexample :
    apiServiceGetSubscriptions alwaysFailSource = 2
    ∧ apiServiceGetSubscriptions alwaysFailSource ≠ 1
    ∧ apiServiceGet alwaysFailSource = Except.error "boom" := by
  refine ⟨rfl, by decide, rfl⟩

/-- C5 amended: POST/PUT/DELETE requests are issued exactly once, while a GET
is re-issued exactly once after a failed first attempt (`retry(1)`): it makes
at most two attempts, makes two exactly when the first fails, succeeds if
either attempt succeeds, and surfaces the second error otherwise. -/
theorem apiService_retry_behavior (A : Type) (source : Nat → Except String A) :
    apiServicePostSubscriptions source = 1
    ∧ 1 ≤ apiServiceGetSubscriptions source
    ∧ apiServiceGetSubscriptions source ≤ 2
    ∧ (apiServiceGetSubscriptions source = 2 ↔ ∃ e, source 0 = Except.error e)
    ∧ (∀ a, source 0 = Except.ok a → apiServiceGet source = Except.ok a)
    ∧ (∀ e a, source 0 = Except.error e → source 1 = Except.ok a →
        apiServiceGet source = Except.ok a)
    ∧ (∀ e e2, source 0 = Except.error e → source 1 = Except.error e2 →
        apiServiceGet source = Except.error e2) := by
  cases h0 : source 0 with
  | ok a =>
    refine ⟨?_, ?_, ?_, ?_, ?_, ?_, ?_⟩ <;>
      simp_all [apiServicePostSubscriptions, apiServiceGetSubscriptions, apiServiceGet,
        subscriptionCount, retryPipe, h0]
  | error e =>
    cases h1 : source 1 with
    | ok a =>
      refine ⟨?_, ?_, ?_, ?_, ?_, ?_, ?_⟩ <;>
        simp_all [apiServicePostSubscriptions, apiServiceGetSubscriptions, apiServiceGet,
          subscriptionCount, retryPipe, h0, h1]
    | error e2 =>
      refine ⟨?_, ?_, ?_, ?_, ?_, ?_, ?_⟩ <;>
        simp_all [apiServicePostSubscriptions, apiServiceGetSubscriptions, apiServiceGet,
          subscriptionCount, retryPipe, h0, h1]

/-- Witness for the amended C5: a GET whose first attempt fails and whose
second succeeds is returned as a success. -/
theorem apiService_retry_behavior_witness :
    apiServiceGet failThenOkSource = Except.ok () :=
  (apiService_retry_behavior Unit failThenOkSource).2.2.2.2.2.1 "boom" () rfl rfl

/-- Stable insertion for the comparator `(a, b) => b.frequency - a.frequency`:
an element is placed before the first element whose frequency is not larger,
so equal frequencies keep their input order — the behaviour of the stable
`Array.prototype.sort`. -/
def insertByFreqDesc (x : GlossaryTerm) : List GlossaryTerm → List GlossaryTerm
  | [] => [x]
  | h :: rest =>
      if h.frequency ≤ x.frequency then x :: h :: rest else h :: insertByFreqDesc x rest

/-- The stable descending-frequency sort performed by
`GlossaryService.getFrequentTerms`. -/
def sortByFreqDesc : List GlossaryTerm → List GlossaryTerm
  | [] => []
  | x :: rest => insertByFreqDesc x (sortByFreqDesc rest)

/-- `GlossaryService.getFrequentTerms` from `glossary.ts`, applied to the term
list fetched by `getTerms`: sort by descending frequency, then `slice(0, limit)`. -/
def getFrequentTerms (terms : List GlossaryTerm) (limit : Nat) : List GlossaryTerm :=
  (sortByFreqDesc terms).take limit

/-- Modelled from the spec: the backend glossary `get(novel_id, term_type?,
active_only)` operation is not part of the sources (only its HTTP caller
`GlossaryService.getTerms` is); per the spec it returns terms "ordered by
descending frequency then term id". This predicate states that order. -/
def SortedByFreqThenId (terms : List GlossaryTerm) : Prop :=
  terms.Pairwise (fun a b =>
    b.frequency < a.frequency ∨ (a.frequency = b.frequency ∧ a.id ≤ b.id))

lemma sortByFreqDesc_eq_self (l : List GlossaryTerm)
    (h : l.Pairwise (fun a b => b.frequency ≤ a.frequency)) : sortByFreqDesc l = l := by
  induction l with
  | nil => rfl
  | cons x rest ih =>
    rw [sortByFreqDesc, ih (List.Pairwise.of_cons h)]
    cases rest with
    | nil => rfl
    | cons y t =>
      have hxy : y.frequency ≤ x.frequency := (List.pairwise_cons.mp h).1 y (by simp)
      simp [insertByFreqDesc, hxy]

/-- C6: on the term list delivered by the backend `get` (ordered by descending
frequency then term id), `getFrequentTerms` returns at most `limit` terms,
still ordered by descending frequency with ties broken by term id. -/
theorem getFrequentTerms_sorted (terms : List GlossaryTerm) (limit : Nat)
    (h : SortedByFreqThenId terms) :
    SortedByFreqThenId (getFrequentTerms terms limit)
    ∧ (getFrequentTerms terms limit).length ≤ limit := by
  have hweak : terms.Pairwise (fun a b => b.frequency ≤ a.frequency) :=
    h.imp (by rintro a b (hlt | ⟨heq, _⟩) <;> omega)
  unfold getFrequentTerms
  rw [sortByFreqDesc_eq_self terms hweak]
  exact ⟨List.Pairwise.sublist (List.take_sublist limit terms) h, List.length_take_le _ _⟩

/-- Three terms as the backend would deliver them: frequencies 7, 7, 3, the
tie on 7 ordered by id. -/
def frequentDemoTerms : List GlossaryTerm :=
  [{ id := 1, novel_id := 1, original_term := "aa".toList, preferred_term := "a".toList,
     term_type := "character".toList, context := none, frequency := 7, is_active := true },
   { id := 4, novel_id := 1, original_term := "bb".toList, preferred_term := "b".toList,
     term_type := "place".toList, context := none, frequency := 7, is_active := true },
   { id := 2, novel_id := 1, original_term := "cc".toList, preferred_term := "c".toList,
     term_type := "character".toList, context := none, frequency := 3, is_active := true }]

/-- Witness for C6 at a concrete sorted three-term list with `limit = 2`. -/
theorem getFrequentTerms_sorted_witness :
    SortedByFreqThenId (getFrequentTerms frequentDemoTerms 2)
    ∧ (getFrequentTerms frequentDemoTerms 2).length ≤ 2 :=
  getFrequentTerms_sorted frequentDemoTerms 2 (by
    unfold SortedByFreqThenId frequentDemoTerms
    decide)

/-- `Change` from `nlp.model.ts` (src/unnamed/part_000). -/
structure Change where
  type : String
  description : String
deriving Repr, DecidableEq

/-- `RefinementResult` from `nlp.model.ts` (src/unnamed/part_000). Its third
field is declared `changes_made: Change[]`. -/
structure RefinementResult where
  original_text : Str
  refined_text : Str
  changes_made : List Change
  confidence_score : Rat
  processing_time : Rat
deriving Repr, DecidableEq

/-- The field names of the `RefinementResult` TypeScript interface, in
declaration order; TypeScript interfaces are structural, so the interface is
exactly this set of named fields. -/
def refinementResultFieldNames : List String :=
  ["original_text", "refined_text", "changes_made", "confidence_score", "processing_time"]

/-- The field names of the `Change` TypeScript interface. -/
def changeFieldNames : List String := ["type", "description"]

/-- The field names the specification's `RefinementResult` sentence claims,
stated in the spec's own words for comparison with the source interface. -/
def refinementResultFieldNamesClaimed : List String :=
  ["original_text", "refined_text", "changes", "confidence_score", "processing_time"]

/-- C7 counterexample: the source interface names its change-list field
`changes_made`, not `changes`, so the claimed field set is not bit-exact. -/
theorem refinementResult_fields_counterexample :
    refinementResultFieldNames ≠ refinementResultFieldNamesClaimed
    ∧ "changes" ∉ refinementResultFieldNames
    ∧ "changes_made" ∈ refinementResultFieldNames
    ∧ "changes" ∈ refinementResultFieldNamesClaimed := by decide

/-- C7 amended: the `RefinementResult` interface consists of the five distinct
fields `original_text`, `refined_text`, `changes_made` (the ordered change
list), `confidence_score` and `processing_time`, and `Change` consists of
`type` and `description`. -/
theorem refinementResult_fields_amended :
    refinementResultFieldNames =
      ["original_text", "refined_text", "changes_made", "confidence_score", "processing_time"]
    ∧ changeFieldNames = ["type", "description"]
    ∧ refinementResultFieldNames.Nodup
    ∧ changeFieldNames.Nodup
    ∧ refinementResultFieldNames.length = 5 := by decide

/-- `RefineTextRequest` from `nlp.model.ts`: `novel_id` is optional. -/
structure RefineTextRequest where
  text : Str
  use_glossary : Bool
  novel_id : Option Int
deriving Repr, DecidableEq

/-- JavaScript double negation `!!x` on an optional number: `undefined` and 0
are falsy, every other number is truthy. -/
def truthyNum : Option Int → Bool
  | none => false
  | some n => n != 0

/-- The request built by `NlpService.quickRefine` in `nlp.ts`:
`use_glossary: !!novelId, novel_id: novelId`. -/
def quickRefineRequest (text : Str) (novelId : Option Int) : RefineTextRequest :=
  { text := text, use_glossary := truthyNum novelId, novel_id := novelId }

/-- `NlpService.previewRefinement` simply delegates to `quickRefine`. -/
def previewRefinementRequest (text : Str) (novelId : Option Int) : RefineTextRequest :=
  quickRefineRequest text novelId

/-- C8: in the request built by `quickRefine` (and `previewRefinement`),
`use_glossary` is true exactly when a non-zero `novelId` was supplied, and
whenever it is true the `novel_id` field is set. -/
theorem quickRefine_glossary_invariant (text : Str) (novelId : Option Int) :
    ((quickRefineRequest text novelId).use_glossary = true ↔
      ∃ n, novelId = some n ∧ n ≠ 0)
    ∧ ((quickRefineRequest text novelId).use_glossary = true →
      (quickRefineRequest text novelId).novel_id.isSome = true)
    ∧ previewRefinementRequest text novelId = quickRefineRequest text novelId := by
  cases novelId <;>
    simp [quickRefineRequest, previewRefinementRequest, truthyNum]

/-- Witness for C8 at `novelId = some 5`. -/
theorem quickRefine_glossary_invariant_witness :
    (quickRefineRequest [] (some 5)).novel_id.isSome = true :=
  (quickRefine_glossary_invariant [] (some 5)).2.1 (by decide)

/-- One step of `typeStats[term.term_type] = (typeStats[term.term_type] || 0) + 1`
on the object modelled as an association list keyed by term type. -/
def bumpCount (m : List (Str × Nat)) (k : Str) : List (Str × Nat) :=
  match m with
  | [] => [(k, 1)]
  | (k', v) :: rest => if k' = k then (k', v + 1) :: rest else (k', v) :: bumpCount rest k

/-- Total of the per-type counts of a type-breakdown object. -/
def sumCounts (m : List (Str × Nat)) : Nat := (m.map Prod.snd).sum

/-- The callback of `terms.reduce((max, term) => term.frequency > max.frequency
? term : max)`. -/
def pickMoreFrequent (mx t : GlossaryTerm) : GlossaryTerm :=
  if mx.frequency < t.frequency then t else mx

/-- The statistics object built by `GlossaryService.getTermStatistics`. -/
structure TermStatistics where
  totalTerms : Nat
  activeTerms : Nat
  inactiveTerms : Nat
  typeBreakdown : List (Str × Nat)
  averageFrequency : Rat
  mostFrequentTerm : Option GlossaryTerm
deriving Repr, DecidableEq

/-- `GlossaryService.getTermStatistics` from `glossary.ts`, applied to the
term list fetched with `active_only = false`. -/
def getTermStatistics (terms : List GlossaryTerm) : TermStatistics :=
  { totalTerms := terms.length
    activeTerms := (terms.filter (fun t => t.is_active)).length
    inactiveTerms := (terms.filter (fun t => !t.is_active)).length
    typeBreakdown := terms.foldl (fun acc t => bumpCount acc t.term_type) []
    averageFrequency :=
      if 0 < terms.length then
        ((terms.foldl (fun sum t => sum + t.frequency) 0 : Nat) : Rat) / (terms.length : Rat)
      else 0
    mostFrequentTerm :=
      match terms with
      | [] => none
      | h :: rest => some (rest.foldl pickMoreFrequent h) }

lemma length_filter_partition (terms : List GlossaryTerm) :
    (terms.filter (fun t => t.is_active)).length +
      (terms.filter (fun t => !t.is_active)).length = terms.length := by
  induction terms with
  | nil => rfl
  | cons t rest ih =>
    cases h : t.is_active <;> simp [List.filter_cons, h] <;> omega

lemma sumCounts_bump (m : List (Str × Nat)) (k : Str) :
    sumCounts (bumpCount m k) = sumCounts m + 1 := by
  induction m with
  | nil => rfl
  | cons p rest ih =>
    obtain ⟨k', v⟩ := p
    by_cases h : k' = k <;> simp [bumpCount, h, sumCounts] at * <;> omega

lemma sumCounts_foldl_bump (terms : List GlossaryTerm) :
    ∀ m : List (Str × Nat),
      sumCounts (terms.foldl (fun acc t => bumpCount acc t.term_type) m) =
        sumCounts m + terms.length := by
  induction terms with
  | nil => intro m; simp
  | cons t rest ih =>
    intro m
    simp only [List.foldl_cons, List.length_cons]
    rw [ih, sumCounts_bump]
    omega

lemma foldl_add_frequency (terms : List GlossaryTerm) :
    ∀ n : Nat, terms.foldl (fun sum t => sum + t.frequency) n =
      n + (terms.map GlossaryTerm.frequency).sum := by
  induction terms with
  | nil => intro n; simp
  | cons t rest ih =>
    intro n
    simp only [List.foldl_cons, List.map_cons, List.sum_cons]
    rw [ih]
    omega

lemma foldl_pickMoreFrequent_spec (rest : List GlossaryTerm) :
    ∀ h : GlossaryTerm,
      (rest.foldl pickMoreFrequent h) ∈ h :: rest
      ∧ h.frequency ≤ (rest.foldl pickMoreFrequent h).frequency
      ∧ ∀ u ∈ rest, u.frequency ≤ (rest.foldl pickMoreFrequent h).frequency := by
  induction rest with
  | nil => intro h; simp
  | cons t rs ih =>
    intro h
    simp only [List.foldl_cons]
    by_cases hc : h.frequency < t.frequency
    · have hpick : pickMoreFrequent h t = t := if_pos hc
      rw [hpick]
      obtain ⟨hmem, hge, hall⟩ := ih t
      refine ⟨?_, by omega, ?_⟩
      · rcases List.mem_cons.mp hmem with h1 | h1 <;> simp [h1]
      · intro u hu
        rcases List.mem_cons.mp hu with rfl | hu2
        · exact hge
        · exact hall u hu2
    · have hpick : pickMoreFrequent h t = h := if_neg hc
      rw [hpick]
      obtain ⟨hmem, hge, hall⟩ := ih h
      refine ⟨?_, hge, ?_⟩
      · rcases List.mem_cons.mp hmem with h1 | h1 <;> simp [h1]
      · intro u hu
        rcases List.mem_cons.mp hu with rfl | hu2
        · omega
        · exact hall u hu2

/-- C9: `getTermStatistics` partitions the input into active and inactive
terms, its per-type counts sum to the total, its average frequency is the
arithmetic mean (0 for no terms), and its most frequent term is an element of
the list attaining the maximum frequency (none for no terms). -/
theorem termStatistics_invariants (terms : List GlossaryTerm) :
    (getTermStatistics terms).activeTerms + (getTermStatistics terms).inactiveTerms =
      (getTermStatistics terms).totalTerms
    ∧ (getTermStatistics terms).totalTerms = terms.length
    ∧ sumCounts (getTermStatistics terms).typeBreakdown = terms.length
    ∧ (0 < terms.length → (getTermStatistics terms).averageFrequency =
        ((terms.map GlossaryTerm.frequency).sum : Rat) / (terms.length : Rat))
    ∧ (terms.length = 0 → (getTermStatistics terms).averageFrequency = 0)
    ∧ (terms = [] → (getTermStatistics terms).mostFrequentTerm = none)
    ∧ (∀ t, (getTermStatistics terms).mostFrequentTerm = some t →
        t ∈ terms ∧ ∀ u ∈ terms, u.frequency ≤ t.frequency) := by
  refine ⟨length_filter_partition terms, rfl, ?_, ?_, ?_, ?_, ?_⟩
  · have := sumCounts_foldl_bump terms []
    simpa [getTermStatistics, sumCounts] using this
  · intro hpos
    simp only [getTermStatistics, if_pos hpos]
    rw [foldl_add_frequency terms 0]
    simp
  · intro h0
    simp [getTermStatistics, h0]
  · intro hnil
    simp [getTermStatistics, hnil]
  · intro t ht
    cases terms with
    | nil => simp [getTermStatistics] at ht
    | cons hd rest =>
      simp only [getTermStatistics, Option.some.injEq] at ht
      obtain ⟨hmem, _, hall⟩ := foldl_pickMoreFrequent_spec rest hd
      rw [ht] at hmem hall
      refine ⟨hmem, ?_⟩
      intro u hu
      rcases List.mem_cons.mp hu with rfl | hu2
      · rw [← ht]
        exact (foldl_pickMoreFrequent_spec rest u).2.1
      · exact hall u hu2

/-- Witness for C9 at the three-term list: the average frequency is the
arithmetic mean. -/
theorem termStatistics_invariants_witness :
    (getTermStatistics frequentDemoTerms).averageFrequency =
      ((frequentDemoTerms.map GlossaryTerm.frequency).sum : Rat) /
        (frequentDemoTerms.length : Rat) :=
  (termStatistics_invariants frequentDemoTerms).2.2.2.1 (by decide)
